import Mathlib

/-!
Formal model of the corsairpsu HID driver (corsairpsu.c, module version 0.1.7).

The definitions below are a shallow embedding of the C source: machine
integers become `Nat`/`Int` with explicit reductions where overflow or sign
matters, the per-device data and the file-static mutex become explicit
state, and the two USB interrupt transfers of one exchange become an oracle
`Nat → XferOutcome` giving the outcome of each successive exchange.  A ghost
event trace records lock operations, buffer accesses and transfers in
source order.
-/

namespace Corsairpsu

/-- Reinterpretation of the low `w` bits of `x` as a `w`-bit
twos-complement signed integer (`(s16)x` for `w = 16`; also used for the
11-bit mantissa and 5-bit exponent fields of LINEAR11). -/
def toSigned (w : Nat) (x : Nat) : Int :=
  if x < 2 ^ (w - 1) then (x : Int) else (x : Int) - 2 ^ w

/-- Shallow embedding of `pmbus_linear11_to_long`.  In the C source:
`exponent = ((s16)v16) >> 11` (arithmetic shift of a signed value = floor
division by 2^11), `mantissa = ((s16)((v16 & 0x7ff) << 5)) >> 5` (with
`& 0x7ff` written as `% 2048` and `<< 5` as `* 32`; the intermediate fits
16 bits since `(v16 & 0x7ff) << 5 < 65536`), `val = mantissa * scale`,
then `val <<= exponent` when `exponent >= 0` (multiplication by the power
of two) else the arithmetic right shift `val >>= -exponent` (floor
division by the power of two). -/
def pmbus_linear11_to_long (v16 : Nat) (scale : Int) : Int :=
  let exponent : Int := Int.fdiv (toSigned 16 v16) 2048
  let mantissa : Int := Int.fdiv (toSigned 16 ((v16 % 2048) * 32)) 32
  let val : Int := mantissa * scale
  if 0 ≤ exponent then val * 2 ^ exponent.toNat
  else Int.fdiv val (2 ^ (-exponent).toNat)

/-- Reference formula stated by the spec for LINEAR11: the mantissa is the
low 11 bits of `v16` sign-extended as an 11-bit twos-complement integer,
the exponent is the high 5 bits sign-extended as a 5-bit twos-complement
integer, and the value is `mantissa * scale` shifted left by the exponent
when it is nonnegative, else arithmetically right-shifted (floor division,
sign preserving). -/
def linear11_ref (v16 : Nat) (scale : Int) : Int :=
  let m : Int := toSigned 11 (v16 % 2048)
  let e : Int := toSigned 5 (v16 / 2048)
  if 0 ≤ e then m * scale * 2 ^ e.toNat
  else Int.fdiv (m * scale) (2 ^ (-e).toNat)

/-- Reading of the spec for the fan channel (`scale = 0`): the decode is
claimed to return the real value `mantissa * 2^exponent` rounded to whole
units, the scale being discarded.  This definition follows the spec words
and is compared against `pmbus_linear11_to_long _ 0`. -/
def linear11_whole_ref (v16 : Nat) : Int :=
  let m : Int := toSigned 11 (v16 % 2048)
  let e : Int := toSigned 5 (v16 / 2048)
  if 0 ≤ e then m * 2 ^ e.toNat
  else Int.fdiv m (2 ^ (-e).toNat)

/-! ## Transport and protocol model

`usbdev_mutex` is declared `static DEFINE_MUTEX(usbdev_mutex)` at file
scope, so it is one mutex for the whole module, shared by every attached
device; it is modelled as a `Bool` (`true` = held) passed separately from
the per-device data.  The per-device `struct corsairpsu_data` (its 64-byte
`buf`) is modelled by `DevSt`, extended with two ghost fields: `nx`, the
number of exchanges attempted so far (the index into the transfer oracle),
and `tr`, the event trace. -/

/-- Error numbers used by the driver (Linux errno values, returned
negated): `USB_MUTEX_LOCKED_ERR` is the drivers own `-99`. -/
def USB_MUTEX_LOCKED_ERR : Int := -99

/-- Linux `ENODATA`. -/
def ENODATA : Int := 61

/-- Linux `EINVAL`. -/
def EINVAL : Int := 22

/-- Linux `EOPNOTSUPP`. -/
def EOPNOTSUPP : Int := 95

/-- Outcome of one write-then-read USB exchange, as decided by the
environment: the outbound `usb_interrupt_msg` fails with `e`, the inbound
one fails with `e`, or both succeed and the device answers with the
64-byte frame `resp`.  Error codes returned by the kernel are negative;
theorems that depend on this carry it as a hypothesis. -/
inductive XferOutcome where
  | sendErr (e : Int)
  | recvErr (e : Int)
  | ok (resp : List Nat)
deriving DecidableEq

/-- Ghost events recorded in source order: lock operations, stores to and
loads from the shared 64-byte buffer, and the two USB transfers. -/
inductive Ev where
  | trylockFail
  | lockAcq
  | lockRel
  | bufZero
  | bufStore (i v : Nat)
  | bufLoad (i : Nat)
  | xferOut (frame : List Nat)
  | xferIn
deriving DecidableEq

/-- Per-device state: the reusable 64-byte command/response buffer, the
oracle index, and the ghost event trace. -/
structure DevSt where
  buf : List Nat
  nx : Nat
  tr : List Ev
deriving DecidableEq

/-- Result of `usb_send_recv_cmd` / `send_recv_cmd_impl`: the C return
value, the state of the module-wide mutex after the call, and the new
device state. -/
structure XRes where
  ret : Int
  mutex : Bool
  dev : DevSt
deriving DecidableEq

/-- Result of `send_recv_cmd`: `.ok bytes` models a 0 return with `bytes`
copied out of `buf+2` (empty when `result == NULL`), `.error e` models the
negative return `e`. -/
structure SRes where
  res : Except Int (List Nat)
  mutex : Bool
  dev : DevSt

/-- The body of `usb_send_recv_cmd` after `mutex_trylock` succeeded: the
outbound transfer of the current buffer, and on its success the
`memset(data->buf, 0, 64)` followed by the inbound transfer; every branch
ends in `mutex_unlock` (the returned mutex is `false`). -/
def usb_body (o : Nat → XferOutcome) (d : DevSt) : XRes :=
  match o d.nx with
  | .sendErr e =>
      ⟨e, false, { d with nx := d.nx + 1
                          tr := d.tr ++ [.xferOut d.buf, .lockRel] }⟩
  | .recvErr e =>
      ⟨e, false, { d with buf := List.replicate 64 0
                          nx := d.nx + 1
                          tr := d.tr ++ [.xferOut d.buf, .bufZero, .xferIn, .lockRel] }⟩
  | .ok resp =>
      ⟨0, false, { d with buf := resp
                          nx := d.nx + 1
                          tr := d.tr ++ [.xferOut d.buf, .bufZero, .xferIn, .lockRel] }⟩

/-- `usb_send_recv_cmd`: non-blocking `mutex_trylock` on the module-wide
mutex; on failure return `USB_MUTEX_LOCKED_ERR` at once (no transfer, no
oracle consumption, mutex left as it was); on success run the exchange
body. -/
def usb_send_recv_cmd (o : Nat → XferOutcome) (m : Bool) (d : DevSt) : XRes :=
  if m then ⟨USB_MUTEX_LOCKED_ERR, m, { d with tr := d.tr ++ [.trylockFail] }⟩
  else usb_body o { d with tr := d.tr ++ [.lockAcq] }

/-- A command: `data->buf[0] = addr` (the page), `buf[1] = opcode`,
`buf[2] = opdata` (the operand). -/
structure Cmd where
  addr : Nat
  opcode : Nat
  opdata : Nat
deriving DecidableEq

/-- The 64-byte command frame built by `send_recv_cmd_impl`:
`memset(buf, 0, 64)` then the three leading bytes. -/
def frameOf (c : Cmd) : List Nat :=
  c.addr :: c.opcode :: c.opdata :: List.replicate 61 0

/-- `send_recv_cmd_impl`: zero the buffer, store the three command bytes,
then perform the exchange.  (The C signature also carries the unused
`result`/`result_size` parameters; they are not read by the function and
are omitted here.) -/
def send_recv_cmd_impl (o : Nat → XferOutcome) (m : Bool) (d : DevSt)
    (c : Cmd) : XRes :=
  usb_send_recv_cmd o m
    { d with buf := frameOf c
             tr := d.tr ++ [.bufZero, .bufStore 0 c.addr, .bufStore 1 c.opcode,
                            .bufStore 2 c.opdata] }

/-- The fixed identify command used for the recovery handshake:
`send_recv_cmd_impl(data, 0xfe, 0x03, 0x00, NULL, 0)`. -/
def handshake : Cmd := ⟨0xFE, 0x03, 0x00⟩

/-- The copy-out epilogue of `send_recv_cmd`:
`if (result != NULL && result_size > 0) memcpy(result, data->buf + 2,
result_size)`.  `n = 0` models a NULL result pointer. -/
def copyOut (m : Bool) (d : DevSt) (n : Nat) : SRes :=
  if n = 0 then ⟨.ok [], m, d⟩
  else ⟨.ok ((d.buf.drop 2).take n), m,
        { d with tr := d.tr ++ (List.range n).map (fun i => Ev.bufLoad (2 + i)) }⟩

/-- `send_recv_cmd`: one exchange; on a transport error return it
unchanged; on success compare the echoed opcode `data->buf[1]` against the
request; on mismatch run the recovery handshake, surface its transport
error if any, otherwise resend the original command once, surface its
transport error if any, and fail with `-ENODATA` when the echoed opcode
still mismatches; finally copy the result bytes out. -/
def send_recv_cmd (o : Nat → XferOutcome) (m : Bool) (d : DevSt) (c : Cmd)
    (rsize : Nat) : SRes :=
  let x1 := send_recv_cmd_impl o m d c
  if x1.ret < 0 then ⟨.error x1.ret, x1.mutex, x1.dev⟩
  else
    let d1 : DevSt := { x1.dev with tr := x1.dev.tr ++ [.bufLoad 1] }
    if d1.buf.getD 1 0 ≠ c.opcode then
      let x2 := send_recv_cmd_impl o x1.mutex d1 handshake
      if x2.ret < 0 then ⟨.error x2.ret, x2.mutex, x2.dev⟩
      else
        let x3 := send_recv_cmd_impl o x2.mutex x2.dev c
        if x3.ret < 0 then ⟨.error x3.ret, x3.mutex, x3.dev⟩
        else
          let d3 : DevSt := { x3.dev with tr := x3.dev.tr ++ [.bufLoad 1] }
          if d3.buf.getD 1 0 ≠ c.opcode then ⟨.error (-ENODATA), x3.mutex, d3⟩
          else copyOut x3.mutex d3 rsize
    else copyOut x1.mutex d1 rsize

/-- The outbound command frames contained in a trace, in order: one per
`xferOut` event. -/
def frames : List Ev → List (List Nat)
  | [] => []
  | .xferOut f :: es => f :: frames es
  | _ :: es => frames es

/-! ## hwmon read paths -/

/-- The `enum hwmon_sensor_types` values the driver switches on (other
kernel sensor types fall to the default branch, modelled by `other`). -/
inductive HwmonType where
  | chip
  | temp
  | fan
  | in'
  | curr
  | power
  | other
deriving DecidableEq

/-- The per-type attribute constants the driver compares `attr` against;
the numeric enum values are irrelevant to the control flow, so the
constants are modelled symbolically, with `other` for every attribute
value that falls to a default branch. -/
inductive HAttr where
  | chipAttr
  | temp_input
  | fan_input
  | in_input
  | curr_input
  | power_input
  | other
deriving DecidableEq

/-- The `err:` label of `corsairpsu_read`: a failing exchange returns
`-EINVAL` when the error was `USB_MUTEX_LOCKED_ERR`, else `-EOPNOTSUPP`. -/
def errMap (ret : Int) : Int :=
  if ret = USB_MUTEX_LOCKED_ERR then -EINVAL else -EOPNOTSUPP

/-- Little-endian decode of the two result bytes into the `u16 reading`
(`memcpy(&reading, data->buf + 2, 2)` on a little-endian machine). -/
def leU16 (l : List Nat) : Nat :=
  l.getD 0 0 + 256 * l.getD 1 0

/-- Little-endian decode of four result bytes into a `u32 reading`. -/
def leU32 (l : List Nat) : Nat :=
  l.getD 0 0 + 256 * l.getD 1 0 + 65536 * l.getD 2 0 + 16777216 * l.getD 3 0

/-- Result of `corsairpsu_read`: `.ok v` models a 0 return with `*val = v`,
`.error e` models the negative return. -/
structure RRes where
  res : Except Int Int
  mutex : Bool
  dev : DevSt

/-- The repeated pattern of `corsairpsu_read`: one
`send_recv_cmd(data, 0x03, opcode, 0x00, &reading, sizeof(u16))` followed
by `*val = pmbus_linear11_to_long(reading, scale)`, with the `err:`
mapping on failure. -/
def readScaled (o : Nat → XferOutcome) (m : Bool) (d : DevSt) (opc : Nat)
    (scale : Int) : RRes :=
  match send_recv_cmd o m d ⟨0x03, opc, 0x00⟩ 2 with
  | ⟨.error ret, m', d'⟩ => ⟨.error (errMap ret), m', d'⟩
  | ⟨.ok bytes, m', d'⟩ => ⟨.ok (pmbus_linear11_to_long (leU16 bytes) scale), m', d'⟩

/-- The per-rail pattern of `corsairpsu_read`: first the rail selection
`send_recv_cmd(data, 0x02, 0x00, rail, NULL, 0)`, jumping to `err:` on
failure, and only on its success the actual reading command. -/
def railRead (o : Nat → XferOutcome) (m : Bool) (d : DevSt) (rail opc : Nat)
    (scale : Int) : RRes :=
  match send_recv_cmd o m d ⟨0x02, 0x00, rail⟩ 0 with
  | ⟨.error ret, m', d'⟩ => ⟨.error (errMap ret), m', d'⟩
  | ⟨.ok _, m', d'⟩ => readScaled o m' d' opc scale

/-- `corsairpsu_read`: the nested switch on sensor type, attribute and
channel, each leaf being one `readScaled`/`railRead` call with the
(page, opcode, operand, scale) tuple of the C source; every unmatched
combination returns `-EOPNOTSUPP`. -/
def corsairpsu_read (o : Nat → XferOutcome) (m : Bool) (d : DevSt)
    (ty : HwmonType) (attr : HAttr) (ch : Nat) : RRes :=
  match ty, attr, ch with
  | .chip, .chipAttr, 0 => readScaled o m d 0x8D 1000
  | .temp, .temp_input, 0 => readScaled o m d 0x8D 1000
  | .temp, .temp_input, 1 => readScaled o m d 0x8E 1000
  | .fan, .fan_input, 0 => readScaled o m d 0x90 0
  | .in', .in_input, 0 => readScaled o m d 0x88 1000
  | .in', .in_input, 1 => railRead o m d 0 0x8B 1000
  | .in', .in_input, 2 => railRead o m d 1 0x8B 1000
  | .in', .in_input, 3 => railRead o m d 2 0x8B 1000
  | .curr, .curr_input, 0 => railRead o m d 0 0x8C 1000
  | .curr, .curr_input, 1 => railRead o m d 1 0x8C 1000
  | .curr, .curr_input, 2 => railRead o m d 2 0x8C 1000
  | .power, .power_input, 0 => readScaled o m d 0xEE 1000000
  | .power, .power_input, 1 => railRead o m d 0 0x96 1000000
  | .power, .power_input, 2 => railRead o m d 1 0x96 1000000
  | .power, .power_input, 3 => railRead o m d 2 0x96 1000000
  | _, _, _ => ⟨.error (-EOPNOTSUPP), m, d⟩

/-- The nine per-rail channels:
(type, attribute, channel, rail index, reading opcode, scale). -/
def railCombos : List (HwmonType × HAttr × Nat × Nat × Nat × Int) :=
  [(.in', .in_input, 1, 0, 0x8B, 1000),
   (.in', .in_input, 2, 1, 0x8B, 1000),
   (.in', .in_input, 3, 2, 0x8B, 1000),
   (.curr, .curr_input, 0, 0, 0x8C, 1000),
   (.curr, .curr_input, 1, 1, 0x8C, 1000),
   (.curr, .curr_input, 2, 2, 0x8C, 1000),
   (.power, .power_input, 1, 0, 0x96, 1000000),
   (.power, .power_input, 2, 1, 0x96, 1000000),
   (.power, .power_input, 3, 2, 0x96, 1000000)]

/-- `u32_show`, the helper behind the four custom sysfs attributes
(`total_uptime` 0xD1, `current_uptime` 0xD2, `ocp_mode` 0xD8,
`fan_control` 0xF0).  The C declares `u32 reading` uninitialized, calls
`send_recv_cmd` WITHOUT checking its return value, and prints `reading`
unconditionally; `reading0` models the arbitrary initial content of the
uninitialized variable, which is what gets shown when the exchange fails.
The first component is the value printed into the sysfs buffer. -/
def u32_show (o : Nat → XferOutcome) (m : Bool) (d : DevSt) (reading0 : Nat)
    (opcode : Nat) : Nat × Bool × DevSt :=
  match send_recv_cmd o m d ⟨0x03, opcode, 0x00⟩ 4 with
  | ⟨.ok bytes, m', d'⟩ => (leU32 bytes, m', d')
  | ⟨.error _, m', d'⟩ => (reading0, m', d')

/-! ## Interleaved two-device model

`usbdev_mutex` is one `static` mutex for the whole module.  To reason
about two devices whose exchanges interleave, `usb_send_recv_cmd` is cut
at its natural synchronization point into micro-steps: the `mutex_trylock`
step and the locked body (both transfers and the unlock).  Each attached
device is a thread working on its own `corsairpsu_data` while sharing the
single mutex. -/

/-- Phase of one in-progress `usb_send_recv_cmd` call. -/
inductive TPh where
  | ready
  | inflight
  | done (ret : Int)
deriving DecidableEq

/-- One device thread: its call phase and its own `corsairpsu_data`. -/
structure Thread where
  ph : TPh
  dev : DevSt
deriving DecidableEq

/-- One micro-step of a thread against the shared mutex: from `ready`,
the `mutex_trylock` either fails (immediate `USB_MUTEX_LOCKED_ERR`) or
acquires; from `inflight`, the locked body runs and releases. -/
def tstep (o : Nat → XferOutcome) (m : Bool) (t : Thread) : Bool × Thread :=
  match t.ph with
  | .ready =>
      if m then
        (m, { t with ph := .done USB_MUTEX_LOCKED_ERR
                     dev := { t.dev with tr := t.dev.tr ++ [.trylockFail] } })
      else
        (true, { t with ph := .inflight
                        dev := { t.dev with tr := t.dev.tr ++ [.lockAcq] } })
  | .inflight =>
      let x := usb_body o t.dev
      (x.mutex, { t with ph := .done x.ret, dev := x.dev })
  | .done _ => (m, t)

/-- Two attached devices sharing the single module-wide mutex. -/
structure Sys2 where
  mutex : Bool
  ta : Thread
  tb : Thread
deriving DecidableEq

/-- Interleaving scheduler: step thread A or thread B against the shared
mutex. -/
def sysStep (oa ob : Nat → XferOutcome) (s : Sys2) (stepA : Bool) : Sys2 :=
  if stepA then
    let r := tstep oa s.mutex s.ta
    { s with mutex := r.1, ta := r.2 }
  else
    let r := tstep ob s.mutex s.tb
    { s with mutex := r.1, tb := r.2 }

/-! ## Trace predicates and concrete fixtures -/

/-- Annotate each event of a trace with whether the mutex is held when the
event happens (the events of a same exchange between `lockAcq` and
`lockRel`). -/
def annot : Bool → List Ev → List (Ev × Bool)
  | _, [] => []
  | h, e :: es =>
      (e, h) :: annot (match e with | .lockAcq => true | .lockRel => false | _ => h) es

/-- The lock-held flag after processing a list of events, starting from
`h`. -/
def lockAfter (h : Bool) (s : List Ev) : Bool :=
  s.foldl (fun h e => match e with | .lockAcq => true | .lockRel => false | _ => h) h

/-- One annotated event is fine for the spec claim when a buffer access
(zeroing, frame store, response load) carries the lock-held flag. -/
def lockedOK (p : Ev × Bool) : Bool :=
  match p.1 with
  | .bufZero => p.2
  | .bufStore _ _ => p.2
  | .bufLoad _ => p.2
  | _ => true

/-- The property claimed by the spec: every buffer access happens while
the lock is held. -/
def bufAccessesLockedOnly (tr : List Ev) : Bool :=
  (annot false tr).all lockedOK

/-- One annotated event is fine for the actual discipline of the code when
frame stores and response loads happen while the lock is NOT held and the
transfers while it is. -/
def discOK (p : Ev × Bool) : Bool :=
  match p.1 with
  | .bufStore _ _ => !p.2
  | .bufLoad _ => !p.2
  | .xferOut _ => p.2
  | .xferIn => p.2
  | _ => true

/-- What the code actually guarantees: the frame stores and the response
loads happen while the lock is NOT held, the transfers while it is. -/
def accessDiscipline (tr : List Ev) : Bool :=
  (annot false tr).all discOK

/-- A trace that starts and ends unlocked and respects the access
discipline. -/
def okTrace (tr : List Ev) : Prop :=
  lockAfter false tr = false ∧ (annot false tr).all discOK = true

/-- A fresh device state: zeroed buffer, no exchange yet, empty trace. -/
def d0 : DevSt := ⟨List.replicate 64 0, 0, []⟩

/-- An environment whose every exchange succeeds with an all-zero
response. -/
def oZero : Nat → XferOutcome := fun _ => .ok (List.replicate 64 0)

/-- An environment whose every outbound transfer fails with `-110`
(`-ETIMEDOUT`). -/
def oErr : Nat → XferOutcome := fun _ => .sendErr (-110)

/-- An environment that always echoes opcode 0x8D with payload bytes
0xD6 0x0A (the spec example reading 0x0AD6). -/
def oTemp : Nat → XferOutcome :=
  fun _ => .ok (0 :: 0x8D :: 0xD6 :: 0x0A :: List.replicate 60 0)

/-- An environment that always answers with an echoed opcode 0x42 that
matches no request of the driver. -/
def oBadEcho : Nat → XferOutcome :=
  fun _ => .ok (0 :: 0x42 :: List.replicate 62 0)

/-- An environment that always echoes the fan opcode 0x90 with a nonzero
LINEAR11 payload 0x0234 (mantissa 564, exponent 0). -/
def oFan : Nat → XferOutcome :=
  fun _ => .ok (0 :: 0x90 :: 0x34 :: 0x02 :: List.replicate 60 0)

/-- Like `oBadEcho`, except that the handshake exchange (the second one)
answers with a different junk echo 0x55, to exhibit that the handshake
response content is never inspected. -/
def oBadEcho2 : Nat → XferOutcome :=
  fun k => if k = 1 then .ok (0 :: 0x55 :: List.replicate 62 0) else oBadEcho k

/-- The initial two-device system: mutex free, both threads ready. -/
def sys0 : Sys2 := ⟨false, ⟨.ready, d0⟩, ⟨.ready, d0⟩⟩

/-- The system after thread A performed its `mutex_trylock` step. -/
def sys1 : Sys2 := sysStep oZero oZero sys0 true

/-- The system after thread A acquired and thread B then attempted its
own `mutex_trylock`. -/
def sys2 : Sys2 := sysStep oZero oZero sys1 false

theorem linear11_exponent_eq (v : Nat) (hv : v < 65536) :
    Int.fdiv (toSigned 16 v) 2048 = toSigned 5 (v / 2048) := by
  unfold toSigned
  rw [Int.fdiv_eq_ediv _ (by norm_num)]
  norm_num
  split_ifs <;> omega

theorem linear11_mantissa_eq (v : Nat) :
    Int.fdiv (toSigned 16 ((v % 2048) * 32)) 32 = toSigned 11 (v % 2048) := by
  unfold toSigned
  rw [Int.fdiv_eq_ediv _ (by norm_num)]
  norm_num
  split_ifs <;> omega

/-- The scale is multiplied into the mantissa before any shifting, so a
zero scale zeroes the result for every input. -/
theorem linear11_scale_zero (v : Nat) : pmbus_linear11_to_long v 0 = 0 := by
  simp [pmbus_linear11_to_long, Int.zero_fdiv]

/-- C1. For every 16-bit value and each scale in {0, 1000, 1000000}, the
LINEAR11 decode returns the sign-extended 11-bit mantissa times the scale,
shifted by the sign-extended 5-bit exponent (left shift when nonnegative,
arithmetic right shift when negative), the multiplication happening before
the shift; in particular 0x0000 decodes to 0 for every scale, and every
input whose mantissa bits are all ones with exponent 0 decodes to the
negated scale. -/
theorem C1_linear11_decode :
    (∀ v : Nat, v < 65536 → ∀ scale : Int,
        scale = 0 ∨ scale = 1000 ∨ scale = 1000000 →
        pmbus_linear11_to_long v scale = linear11_ref v scale) ∧
    (∀ scale : Int, pmbus_linear11_to_long 0 scale = 0) ∧
    (∀ (v : Nat) (scale : Int), v < 65536 → v % 2048 = 2047 → v / 2048 = 0 →
        pmbus_linear11_to_long v scale = -scale) := by
  refine ⟨?_, ?_, ?_⟩
  · intro v hv scale _
    simp only [pmbus_linear11_to_long, linear11_ref]
    rw [linear11_exponent_eq v hv, linear11_mantissa_eq v]
  · intro scale
    have h0 : Int.fdiv (toSigned 16 0) 2048 = 0 := by decide
    have h1 : Int.fdiv (toSigned 16 0) 32 = 0 := by decide
    simp [pmbus_linear11_to_long, h0, h1]
  · intro v scale hv h2047 hexp
    have hv' : v = 2047 := by omega
    subst hv'
    have he : Int.fdiv (toSigned 16 2047) 2048 = 0 := by decide
    have hm : Int.fdiv (toSigned 16 ((2047 % 2048) * 32)) 32 = -1 := by decide
    simp [pmbus_linear11_to_long, he, hm]

/-- Witness for C1 at the spec example input 0x0AD6 with scale 1000. -/
theorem C1_linear11_decode_witness :
    pmbus_linear11_to_long 0x0AD6 1000 = linear11_ref 0x0AD6 1000 :=
  C1_linear11_decode.1 0x0AD6 (by norm_num) 1000 (Or.inr (Or.inl rfl))

/-- C2 counterexample: at input 0x0001 (mantissa 1, exponent 0) the decode
with scale 0 returns 0, not the value mantissa x 2^exponent = 1 claimed
for the scale-0 case. -/
theorem C2_scale_zero_counterexample :
    pmbus_linear11_to_long 1 0 ≠ linear11_whole_ref 1 := by decide

/-- C2 amended: called with scale = 0 (as the fan-RPM channel does), the
decode returns 0 for every input, because the mantissa is multiplied by
the scale before the shift; consequently every successful fan-RPM read
reports the value 0. -/
theorem C2_scale_zero_amended :
    (∀ v : Nat, pmbus_linear11_to_long v 0 = 0) ∧
    (∀ (o : Nat → XferOutcome) (m : Bool) (d : DevSt) (r : Int),
        (corsairpsu_read o m d .fan .fan_input 0).res = .ok r → r = 0) := by
  refine ⟨linear11_scale_zero, ?_⟩
  intro o m d r hr
  unfold corsairpsu_read readScaled at hr
  rcases hs : send_recv_cmd o m d ⟨0x03, 0x90, 0x00⟩ 2 with ⟨res, m2, d2⟩
  rw [hs] at hr
  cases res with
  | error e => simp at hr
  | ok bytes =>
      simp at hr
      rw [← hr]
      exact linear11_scale_zero _

/-- Witness for C2 amended on a concrete successful fan exchange. -/
theorem C2_scale_zero_amended_witness :
    pmbus_linear11_to_long 0x0234 0 = 0 ∧ (0 : Int) = 0 :=
  ⟨C2_scale_zero_amended.1 0x0234, C2_scale_zero_amended.2 oFan false d0 0 rfl⟩

@[simp]
theorem frames_append (s t : List Ev) : frames (s ++ t) = frames s ++ frames t := by
  induction s with
  | nil => simp [frames]
  | cons e es ih => cases e <;> simp [frames, ih]

/-- C6. Once `usb_send_recv_cmd` has acquired the mutex (it was free), it
releases it on every exit path: after the call the mutex is free again,
whether the outbound transfer failed, the inbound transfer failed, or the
exchange succeeded. -/
theorem C6_lock_released_on_every_path :
    ∀ (o : Nat → XferOutcome) (d : DevSt),
      (usb_send_recv_cmd o false d).mutex = false ∧
      (∀ e, o d.nx = .sendErr e → (usb_send_recv_cmd o false d).ret = e) ∧
      (∀ e, o d.nx = .recvErr e → (usb_send_recv_cmd o false d).ret = e) ∧
      (∀ r, o d.nx = .ok r → (usb_send_recv_cmd o false d).ret = 0) := by
  intro o d
  refine ⟨?_, ?_, ?_, ?_⟩
  · rcases h : o d.nx with e|e|r <;> simp [usb_send_recv_cmd, usb_body, h]
  · intro e h; simp [usb_send_recv_cmd, usb_body, h]
  · intro e h; simp [usb_send_recv_cmd, usb_body, h]
  · intro r h; simp [usb_send_recv_cmd, usb_body, h]

/-- Witness for C6 on a failing outbound transfer. -/
theorem C6_lock_released_on_every_path_witness :
    (usb_send_recv_cmd oErr false d0).mutex = false ∧
    (usb_send_recv_cmd oErr false d0).ret = -110 :=
  ⟨(C6_lock_released_on_every_path oErr d0).1,
   (C6_lock_released_on_every_path oErr d0).2.1 (-110) rfl⟩

/-- C7. When the mutex is already held as an exchange begins, the
`mutex_trylock` fails and `usb_send_recv_cmd` returns
`USB_MUTEX_LOCKED_ERR` immediately: the oracle index is untouched (no
transfer was attempted), the buffer is untouched, and no outbound frame is
added to the trace. -/
theorem C7_busy_no_transfer :
    ∀ (o : Nat → XferOutcome) (d : DevSt),
      (usb_send_recv_cmd o true d).ret = USB_MUTEX_LOCKED_ERR ∧
      (usb_send_recv_cmd o true d).dev.nx = d.nx ∧
      (usb_send_recv_cmd o true d).dev.buf = d.buf ∧
      frames (usb_send_recv_cmd o true d).dev.tr = frames d.tr := by
  intro o d
  simp [usb_send_recv_cmd, frames]

/-- C4 counterexample: an interleaved execution of two devices in which
device A is in flight (between its trylock and its unlock) and device B,
attempting its own exchange, observes `USB_MUTEX_LOCKED_ERR` because the
mutex is the module-wide `usbdev_mutex`, not a per-device lock. -/
theorem C4_global_mutex_counterexample :
    sys1.ta.ph = .inflight ∧ sys1.mutex = true ∧
    sys2.tb.ph = .done USB_MUTEX_LOCKED_ERR := by
  refine ⟨rfl, rfl, rfl⟩

/-- C4 amended: the lock is the single module-wide `usbdev_mutex` shared
by all attached devices; whenever one device acquires it, an exchange
attempted on the other device while the first is in flight returns the
Busy error. -/
theorem C4_global_mutex_amended :
    ∀ (oa ob : Nat → XferOutcome) (s : Sys2),
      s.mutex = false → s.ta.ph = .ready → s.tb.ph = .ready →
      (sysStep oa ob s true).ta.ph = .inflight ∧
      (sysStep oa ob s true).mutex = true ∧
      (sysStep oa ob (sysStep oa ob s true) false).tb.ph
        = .done USB_MUTEX_LOCKED_ERR := by
  intro oa ob s hm ha hb
  obtain ⟨m, ⟨pa, da⟩, ⟨pb, db⟩⟩ := s
  simp at hm ha hb
  subst hm; subst ha; subst hb
  simp [sysStep, tstep]

/-- Witness for C4 amended at the concrete initial system. -/
theorem C4_global_mutex_amended_witness :
    (sysStep oZero oZero sys0 true).ta.ph = .inflight ∧
    (sysStep oZero oZero sys0 true).mutex = true ∧
    (sysStep oZero oZero (sysStep oZero oZero sys0 true) false).tb.ph
      = .done USB_MUTEX_LOCKED_ERR :=
  C4_global_mutex_amended oZero oZero sys0 rfl rfl rfl

theorem errMap_cases (r : Int) : errMap r = -EINVAL ∨ errMap r = -EOPNOTSUPP := by
  unfold errMap
  split <;> simp

theorem readScaled_err {o : Nat → XferOutcome} {m : Bool} {d : DevSt}
    {opc : Nat} {sc e : Int} (h : (readScaled o m d opc sc).res = .error e) :
    e = -EINVAL ∨ e = -EOPNOTSUPP := by
  unfold readScaled at h
  rcases hs : send_recv_cmd o m d ⟨0x03, opc, 0x00⟩ 2 with ⟨res, m2, d2⟩
  rw [hs] at h
  cases res with
  | error r =>
      simp at h
      rcases errMap_cases r with h2 | h2 <;> rw [h2] at h <;> [left; right] <;> omega
  | ok bytes => simp at h

theorem railRead_err {o : Nat → XferOutcome} {m : Bool} {d : DevSt}
    {rail opc : Nat} {sc e : Int} (h : (railRead o m d rail opc sc).res = .error e) :
    e = -EINVAL ∨ e = -EOPNOTSUPP := by
  unfold railRead at h
  rcases hs : send_recv_cmd o m d ⟨0x02, 0x00, rail⟩ 0 with ⟨res, m2, d2⟩
  rw [hs] at h
  cases res with
  | error r =>
      simp at h
      rcases errMap_cases r with h2 | h2 <;> rw [h2] at h <;> [left; right] <;> omega
  | ok bytes => exact readScaled_err h

/-- C9 counterexample: a run in which the exchange of the `total_uptime`
custom attribute fails with a transport error, yet `u32_show` (which never
checks the return of `send_recv_cmd`) shows whatever arbitrary value the
uninitialized `reading` variable happened to hold (here 12345). -/
theorem C9_error_swallowed_counterexample :
    (send_recv_cmd oErr false d0 ⟨0x03, 0xD1, 0x00⟩ 4).res = .error (-110) ∧
    (u32_show oErr false d0 12345 0xD1).1 = 12345 :=
  ⟨rfl, rfl⟩

/-- C9 amended: the hwmon channel reads of `corsairpsu_read` do report a
typed failure (`-EINVAL` on lock contention, `-EOPNOTSUPP` otherwise), but
the custom attribute reads through `u32_show` ignore the result of the
exchange: when it fails they display the arbitrary content of the
uninitialized `reading` variable, and only when it succeeds do they
display the decoded little-endian value. -/
theorem C9_error_propagation_amended :
    (∀ (o : Nat → XferOutcome) (m : Bool) (d : DevSt) (r0 opc : Nat) (e : Int),
        (send_recv_cmd o m d ⟨0x03, opc, 0x00⟩ 4).res = .error e →
        (u32_show o m d r0 opc).1 = r0) ∧
    (∀ (o : Nat → XferOutcome) (m : Bool) (d : DevSt) (r0 opc : Nat)
        (bytes : List Nat),
        (send_recv_cmd o m d ⟨0x03, opc, 0x00⟩ 4).res = .ok bytes →
        (u32_show o m d r0 opc).1 = leU32 bytes) ∧
    (∀ (o : Nat → XferOutcome) (m : Bool) (d : DevSt) (ty : HwmonType)
        (ha : HAttr) (ch : Nat) (e : Int),
        (corsairpsu_read o m d ty ha ch).res = .error e →
        e = -EINVAL ∨ e = -EOPNOTSUPP) := by
  refine ⟨?_, ?_, ?_⟩
  · intro o m d r0 opc e he
    unfold u32_show
    rcases hs : send_recv_cmd o m d ⟨0x03, opc, 0x00⟩ 4 with ⟨res, m2, d2⟩
    rw [hs] at he
    cases res with
    | error x => simp
    | ok bytes => simp at he
  · intro o m d r0 opc bytes hb
    unfold u32_show
    rcases hs : send_recv_cmd o m d ⟨0x03, opc, 0x00⟩ 4 with ⟨res, m2, d2⟩
    rw [hs] at hb
    cases res with
    | error x => simp at hb
    | ok b2 =>
        simp at hb
        subst hb
        simp
  · intro o m d ty ha ch e he
    unfold corsairpsu_read at he
    split at he
    case h_1 => exact readScaled_err he
    case h_2 => exact readScaled_err he
    case h_3 => exact readScaled_err he
    case h_4 => exact readScaled_err he
    case h_5 => exact readScaled_err he
    case h_6 => exact railRead_err he
    case h_7 => exact railRead_err he
    case h_8 => exact railRead_err he
    case h_9 => exact railRead_err he
    case h_10 => exact railRead_err he
    case h_11 => exact railRead_err he
    case h_12 => exact readScaled_err he
    case h_13 => exact railRead_err he
    case h_14 => exact railRead_err he
    case h_15 => exact railRead_err he
    case h_16 =>
      simp at he
      omega

/-- Witness for C9 amended: the failing-exchange case at a concrete run. -/
theorem C9_error_propagation_amended_witness :
    (u32_show oErr false d0 77 0xD1).1 = 77 :=
  C9_error_propagation_amended.1 oErr false d0 77 0xD1 (-110) rfl

@[simp]
theorem frames_loads (l : List Nat) (g : Nat → Nat) :
    frames (l.map fun i => Ev.bufLoad (g i)) = [] := by
  induction l with
  | nil => simp [frames]
  | cons x xs ih => simp [frames, ih]

@[simp]
theorem copyOut_frames (m : Bool) (d : DevSt) (n : Nat) :
    frames (copyOut m d n).dev.tr = frames d.tr := by
  unfold copyOut
  split <;> simp

/-- On an echoed-opcode mismatch followed by a transport-successful
handshake, the outbound frames of the whole call are exactly the original
command, the handshake command and the resent original command, whatever
the outcome of the resend. -/
theorem frames_retry (o : Nat → XferOutcome) (b : List Nat) (n : Nat)
    (c : Cmd) (rsize : Nat) (r h : List Nat) (h1 : o n = .ok r)
    (hne : (r[1]?).getD 0 ≠ c.opcode) (h2 : o (n + 1) = .ok h) :
    frames (send_recv_cmd o false ⟨b, n, []⟩ c rsize).dev.tr
      = [frameOf c, frameOf handshake, frameOf c] := by
  rcases h3 : o (n + 2) with e3 | e3 | r3
  · by_cases he3 : e3 < 0 <;>
      simp [send_recv_cmd, send_recv_cmd_impl, usb_send_recv_cmd, usb_body,
            h1, h2, h3, hne, he3, frames, frameOf]
  · by_cases he3 : e3 < 0
    · simp [send_recv_cmd, send_recv_cmd_impl, usb_send_recv_cmd, usb_body,
            h1, h2, h3, hne, he3, frames, frameOf]
    · simp [send_recv_cmd, send_recv_cmd_impl, usb_send_recv_cmd, usb_body,
            h1, h2, h3, hne, he3, frames, frameOf]
      split <;> simp [frames, frameOf]
  · by_cases hr3 : (r3[1]?).getD 0 = c.opcode <;>
      simp [send_recv_cmd, send_recv_cmd_impl, usb_send_recv_cmd, usb_body,
            h1, h2, h3, hne, hr3, frames, frameOf]

/-- C3. On an echoed-opcode mismatch, `send_recv_cmd` performs exactly one
recovery handshake and exactly one resend of the original command, never
more; a transport error of the first exchange is propagated unchanged with
no retry; a transport error of the handshake is surfaced; a still
mismatching resend fails with `-ENODATA`; and a Busy trylock failure is
propagated unchanged with no exchange at all. -/
theorem C3_retry_policy :
    ∀ (o : Nat → XferOutcome) (d : DevSt) (c : Cmd) (rsize : Nat),
      d.tr = [] →
      ((send_recv_cmd o true d c rsize).res = .error USB_MUTEX_LOCKED_ERR ∧
       frames (send_recv_cmd o true d c rsize).dev.tr = []) ∧
      (∀ e : Int, (o d.nx = .sendErr e ∨ o d.nx = .recvErr e) → e < 0 →
        (send_recv_cmd o false d c rsize).res = .error e ∧
        frames (send_recv_cmd o false d c rsize).dev.tr = [frameOf c]) ∧
      (∀ (r : List Nat) (e : Int), o d.nx = .ok r → r.getD 1 0 ≠ c.opcode →
        (o (d.nx + 1) = .sendErr e ∨ o (d.nx + 1) = .recvErr e) → e < 0 →
        (send_recv_cmd o false d c rsize).res = .error e ∧
        frames (send_recv_cmd o false d c rsize).dev.tr
          = [frameOf c, frameOf handshake]) ∧
      (∀ (r h : List Nat), o d.nx = .ok r → r.getD 1 0 ≠ c.opcode →
        o (d.nx + 1) = .ok h →
        frames (send_recv_cmd o false d c rsize).dev.tr
          = [frameOf c, frameOf handshake, frameOf c] ∧
        (∀ r2 : List Nat, o (d.nx + 2) = .ok r2 → r2.getD 1 0 ≠ c.opcode →
          (send_recv_cmd o false d c rsize).res = .error (-ENODATA)) ∧
        (∀ e : Int, (o (d.nx + 2) = .sendErr e ∨ o (d.nx + 2) = .recvErr e) →
          e < 0 → (send_recv_cmd o false d c rsize).res = .error e)) := by
  intro o d c rsize ht
  obtain ⟨b, n, t⟩ := d
  simp only at ht
  subst ht
  refine ⟨?_, ?_, ?_, ?_⟩
  · constructor <;>
      norm_num [send_recv_cmd, send_recv_cmd_impl, usb_send_recv_cmd,
                USB_MUTEX_LOCKED_ERR, frames]
  · intro e hor he
    rcases hor with h1 | h1 <;>
      simp [send_recv_cmd, send_recv_cmd_impl, usb_send_recv_cmd, usb_body,
            h1, he, frames]
  · intro r e h1 hne hor he
    simp only [List.getD_eq_getElem?_getD] at hne
    rcases hor with h2 | h2 <;>
      simp [send_recv_cmd, send_recv_cmd_impl, usb_send_recv_cmd, usb_body,
            h1, h2, hne, he, frames]
  · intro r h h1 hne h2
    simp only [List.getD_eq_getElem?_getD] at hne
    refine ⟨frames_retry o b n c rsize r h h1 hne h2, ?_, ?_⟩
    · intro r2 h3 hne2
      simp only [List.getD_eq_getElem?_getD] at hne2
      simp [send_recv_cmd, send_recv_cmd_impl, usb_send_recv_cmd, usb_body,
            h1, h2, h3, hne, hne2]
    · intro e hor he
      rcases hor with h3 | h3 <;>
        simp [send_recv_cmd, send_recv_cmd_impl, usb_send_recv_cmd, usb_body,
              h1, h2, h3, hne, he]

/-- Witness for C3: a run against a device that always echoes the wrong
opcode performs exactly the three exchanges and fails with `-ENODATA`. -/
theorem C3_retry_policy_witness :
    frames (send_recv_cmd oBadEcho false d0 ⟨0x03, 0x8D, 0x00⟩ 2).dev.tr
      = [frameOf ⟨0x03, 0x8D, 0x00⟩, frameOf handshake, frameOf ⟨0x03, 0x8D, 0x00⟩] ∧
    (send_recv_cmd oBadEcho false d0 ⟨0x03, 0x8D, 0x00⟩ 2).res = .error (-ENODATA) := by
  have h := (C3_retry_policy oBadEcho d0 ⟨0x03, 0x8D, 0x00⟩ 2 rfl).2.2.2
    (0 :: 0x42 :: List.replicate 62 0) (0 :: 0x42 :: List.replicate 62 0)
    rfl (by decide) rfl
  exact ⟨h.1, h.2.1 (0 :: 0x42 :: List.replicate 62 0) rfl (by decide)⟩

/-- C10. The recovery path judges the handshake only by the transport
result of its exchange: whenever the handshake exchange completes without
a transport error, the original command is resent (it is the third
outbound frame), and the result of the whole call does not depend on the
content of the handshake response frame, even when its echoed opcode is
not 0x03. -/
theorem C10_handshake_echo_ignored :
    ∀ (o : Nat → XferOutcome) (d : DevSt) (c : Cmd) (rsize : Nat)
      (r h : List Nat),
      d.tr = [] → o d.nx = .ok r → r.getD 1 0 ≠ c.opcode →
      o (d.nx + 1) = .ok h →
      (frames (send_recv_cmd o false d c rsize).dev.tr).getD 2 [] = frameOf c ∧
      (∀ (o2 : Nat → XferOutcome) (h2 : List Nat),
        (∀ k, k ≠ d.nx + 1 → o2 k = o k) → o2 (d.nx + 1) = .ok h2 →
        (send_recv_cmd o2 false d c rsize).res
          = (send_recv_cmd o false d c rsize).res) := by
  intro o d c rsize r h ht h1 hne h2
  obtain ⟨b, n, t⟩ := d
  simp only at ht h1 h2
  subst ht
  simp only [List.getD_eq_getElem?_getD] at hne
  constructor
  · rw [frames_retry o b n c rsize r h h1 hne h2]
    rfl
  · intro o2 h2' hagree hok2
    have e0 : o2 n = XferOutcome.ok r := (hagree n (by simp)).trans h1
    have e2 : o2 (n + 2) = o (n + 2) := hagree (n + 2) (by simp)
    rcases h3 : o (n + 2) with e3 | e3 | r3
    · by_cases he3 : e3 < 0 <;>
        simp [send_recv_cmd, send_recv_cmd_impl, usb_send_recv_cmd, usb_body,
              copyOut, h1, h2, h3, hne, he3, e0, e2.trans h3, hok2]
    · by_cases he3 : e3 < 0 <;>
        simp [send_recv_cmd, send_recv_cmd_impl, usb_send_recv_cmd, usb_body,
              copyOut, h1, h2, h3, hne, he3, e0, e2.trans h3, hok2]
    · by_cases hr3 : (r3[1]?).getD 0 = c.opcode <;>
        simp [send_recv_cmd, send_recv_cmd_impl, usb_send_recv_cmd, usb_body,
              copyOut, h1, h2, h3, hne, hr3, e0, e2.trans h3, hok2]

/-- Witness for C10: replacing the handshake response echo 0x42 by 0x55
leaves the result unchanged, and the original command is the third frame. -/
theorem C10_handshake_echo_ignored_witness :
    (frames (send_recv_cmd oBadEcho false d0 ⟨0x03, 0x8D, 0x00⟩ 2).dev.tr).getD 2 []
      = frameOf ⟨0x03, 0x8D, 0x00⟩ ∧
    (send_recv_cmd oBadEcho2 false d0 ⟨0x03, 0x8D, 0x00⟩ 2).res
      = (send_recv_cmd oBadEcho false d0 ⟨0x03, 0x8D, 0x00⟩ 2).res := by
  have h := C10_handshake_echo_ignored oBadEcho d0 ⟨0x03, 0x8D, 0x00⟩ 2
    (0 :: 0x42 :: List.replicate 62 0) (0 :: 0x42 :: List.replicate 62 0)
    rfl rfl (by decide) rfl
  refine ⟨h.1, h.2 oBadEcho2 (0 :: 0x55 :: List.replicate 62 0) ?_ rfl⟩
  intro k hk
  simp only [d0] at hk
  simp [oBadEcho2, hk]

/-- One exchange adds at most the frame of its own command to the trace:
either the trylock failed and no frame went out, or exactly the built
frame went out. -/
theorem impl_frames (o : Nat → XferOutcome) (m : Bool) (d : DevSt) (c : Cmd) :
    frames (send_recv_cmd_impl o m d c).dev.tr = frames d.tr ∨
    frames (send_recv_cmd_impl o m d c).dev.tr = frames d.tr ++ [frameOf c] := by
  obtain ⟨b, n, t⟩ := d
  cases m
  · right
    rcases h : o n with e | e | r <;>
      simp [send_recv_cmd_impl, usb_send_recv_cmd, usb_body, h, frames]
  · left
    simp [send_recv_cmd_impl, usb_send_recv_cmd, frames]

/-- Every outbound frame of a whole `send_recv_cmd` call is either one
already in the trace, the frame of the requested command, or the frame of
the recovery handshake. -/
theorem send_recv_frames_mem (o : Nat → XferOutcome) (m : Bool) (d : DevSt)
    (c : Cmd) (rsize : Nat) :
    ∀ f ∈ frames (send_recv_cmd o m d c rsize).dev.tr,
      f ∈ frames d.tr ∨ f = frameOf c ∨ f = frameOf handshake := by
  intro f hf
  rcases hx1 : send_recv_cmd_impl o m d c with ⟨ret1, m1, d1⟩
  have h1 : ∀ g ∈ frames d1.tr, g ∈ frames d.tr ∨ g = frameOf c := by
    intro g hg
    have h := impl_frames o m d c
    rw [hx1] at h
    rcases h with he | he
    · rw [he] at hg
      exact Or.inl hg
    · rw [he] at hg
      rcases List.mem_append.mp hg with hl | hl
      · exact Or.inl hl
      · exact Or.inr (List.mem_singleton.mp hl)
  simp only [send_recv_cmd, hx1] at hf
  split at hf
  · exact (h1 f hf).imp id Or.inl
  · split at hf
    · rcases hx2 : send_recv_cmd_impl o m1
        { d1 with tr := d1.tr ++ [Ev.bufLoad 1] } handshake with ⟨ret2, m2, d2⟩
      have h2 : ∀ g ∈ frames d2.tr,
          g ∈ frames d.tr ∨ g = frameOf c ∨ g = frameOf handshake := by
        intro g hg
        have h := impl_frames o m1 { d1 with tr := d1.tr ++ [Ev.bufLoad 1] } handshake
        rw [hx2] at h
        rcases h with he | he
        · rw [he] at hg
          simp only [frames_append] at hg
          rcases List.mem_append.mp hg with hl | hl
          · exact (h1 g (by simpa using hl)).imp id Or.inl
          · simp [frames] at hl
        · rw [he] at hg
          rcases List.mem_append.mp hg with hl | hl
          · simp only [frames_append] at hl
            rcases List.mem_append.mp hl with hl2 | hl2
            · exact (h1 g (by simpa using hl2)).imp id Or.inl
            · simp [frames] at hl2
          · exact Or.inr (Or.inr (List.mem_singleton.mp hl))
      rw [hx2] at hf
      split at hf
      · exact h2 f hf
      · rcases hx3 : send_recv_cmd_impl o m2 d2 c with ⟨ret3, m3, d3⟩
        have h3 : ∀ g ∈ frames d3.tr,
            g ∈ frames d.tr ∨ g = frameOf c ∨ g = frameOf handshake := by
          intro g hg
          have h := impl_frames o m2 d2 c
          rw [hx3] at h
          rcases h with he | he
          · rw [he] at hg
            exact h2 g hg
          · rw [he] at hg
            rcases List.mem_append.mp hg with hl | hl
            · exact h2 g hl
            · exact Or.inr (Or.inl (List.mem_singleton.mp hl))
        rw [hx3] at hf
        split at hf
        · exact h3 f hf
        · split at hf
          · simp only [frames_append] at hf
            rcases List.mem_append.mp hf with hl | hl
            · exact h3 f hl
            · simp [frames] at hl
          · rw [copyOut_frames] at hf
            simp only [frames_append] at hf
            rcases List.mem_append.mp hf with hl | hl
            · exact h3 f hl
            · simp [frames] at hl
    · rw [copyOut_frames] at hf
      simp only [frames_append] at hf
      rcases List.mem_append.mp hf with hl | hl
      · exact (h1 f hl).imp id Or.inl
      · simp [frames] at hl

/-- The per-rail read pattern: on selection failure the whole read fails
with the mapped error and its final state is exactly the post-selection
state (no further exchange); all frames sent during the selection have
page 0x02 or 0xFE; on selection success the read continues as the reading
exchange from the post-selection state. -/
theorem railRead_spec (o : Nat → XferOutcome) (d : DevSt) (rail opc : Nat)
    (sc : Int) :
    (∀ e : Int, (send_recv_cmd o false d ⟨0x02, 0x00, rail⟩ 0).res = .error e →
      railRead o false d rail opc sc =
        ⟨.error (errMap e), (send_recv_cmd o false d ⟨0x02, 0x00, rail⟩ 0).mutex,
         (send_recv_cmd o false d ⟨0x02, 0x00, rail⟩ 0).dev⟩) ∧
    (∀ l : List Nat, (send_recv_cmd o false d ⟨0x02, 0x00, rail⟩ 0).res = .ok l →
      railRead o false d rail opc sc =
        readScaled o (send_recv_cmd o false d ⟨0x02, 0x00, rail⟩ 0).mutex
          (send_recv_cmd o false d ⟨0x02, 0x00, rail⟩ 0).dev opc sc) := by
  constructor
  · intro e he
    unfold railRead
    rcases hsel : send_recv_cmd o false d ⟨0x02, 0x00, rail⟩ 0 with ⟨res, m2, d2⟩
    rw [hsel] at he
    cases res with
    | error x =>
        simp at he
        subst he
        simp
    | ok l => simp at he
  · intro l hl
    unfold railRead
    rcases hsel : send_recv_cmd o false d ⟨0x02, 0x00, rail⟩ 0 with ⟨res, m2, d2⟩
    rw [hsel] at hl
    cases res with
    | error x => simp at hl
    | ok l2 => simp

/-- All frames sent while executing a rail-selection `send_recv_cmd`
carry page 0x02 (the selection command itself) or page 0xFE (its recovery
handshake), never the page 0x03 of a reading command. -/
theorem railRead_sel_frames (o : Nat → XferOutcome) (d : DevSt) (rail : Nat) :
    d.tr = [] →
    ∀ f ∈ frames (send_recv_cmd o false d ⟨0x02, 0x00, rail⟩ 0).dev.tr,
      f.getD 0 0 = 0x02 ∨ f.getD 0 0 = 0xFE := by
  intro htr f hf
  have hm := send_recv_frames_mem o false d ⟨0x02, 0x00, rail⟩ 0 f hf
  rw [htr] at hm
  simp only [frames] at hm
  rcases hm with hl | rfl | rfl
  · simp at hl
  · left; rfl
  · right; rfl

/-- C8. Every per-rail reading (voltage 0x8B, current 0x8C or power 0x96
on channels mapped to rails 0, 1, 2) first issues the rail-selection
command page 0x02, opcode 0x00 with the rail index as operand, and issues
the page 0x03 reading command only after the selection succeeded; when the
selection fails, the read fails with the mapped error and no frame other
than the selection command (and possibly its recovery handshake) was ever
sent. -/
theorem C8_rail_selection_first :
    ∀ (ty : HwmonType) (ha : HAttr) (ch rail opc : Nat) (sc : Int),
      (ty, ha, ch, rail, opc, sc) ∈ railCombos →
      ∀ (o : Nat → XferOutcome) (d : DevSt),
        (∀ e : Int,
          (send_recv_cmd o false d ⟨0x02, 0x00, rail⟩ 0).res = .error e →
          corsairpsu_read o false d ty ha ch =
            ⟨.error (errMap e),
             (send_recv_cmd o false d ⟨0x02, 0x00, rail⟩ 0).mutex,
             (send_recv_cmd o false d ⟨0x02, 0x00, rail⟩ 0).dev⟩) ∧
        (d.tr = [] →
          ∀ f ∈ frames (send_recv_cmd o false d ⟨0x02, 0x00, rail⟩ 0).dev.tr,
            f.getD 0 0 = 0x02 ∨ f.getD 0 0 = 0xFE) ∧
        (∀ l : List Nat,
          (send_recv_cmd o false d ⟨0x02, 0x00, rail⟩ 0).res = .ok l →
          corsairpsu_read o false d ty ha ch =
            readScaled o (send_recv_cmd o false d ⟨0x02, 0x00, rail⟩ 0).mutex
              (send_recv_cmd o false d ⟨0x02, 0x00, rail⟩ 0).dev opc sc) := by
  intro ty ha ch rail opc sc hmem o d
  simp only [railCombos, List.mem_cons, List.not_mem_nil, or_false,
             Prod.mk.injEq] at hmem
  rcases hmem with h|h|h|h|h|h|h|h|h <;>
    obtain ⟨rfl, rfl, rfl, rfl, rfl, rfl⟩ := h <;>
    exact ⟨fun e he => (railRead_spec o d _ _ _).1 e he,
           railRead_sel_frames o d _,
           fun l hl => (railRead_spec o d _ _ _).2 l hl⟩

/-- Witness for C8: the 5V current channel against a failing transport
fails without any page 0x03 frame having been sent. -/
theorem C8_rail_selection_first_witness :
    corsairpsu_read oErr false d0 .curr .curr_input 1 =
      ⟨.error (errMap (-110)),
       (send_recv_cmd oErr false d0 ⟨0x02, 0x00, 1⟩ 0).mutex,
       (send_recv_cmd oErr false d0 ⟨0x02, 0x00, 1⟩ 0).dev⟩ :=
  (C8_rail_selection_first .curr .curr_input 1 1 0x8C 1000 (by decide) oErr d0).1
    (-110) rfl

/-- C5 counterexample: already on a perfectly normal successful exchange,
the trace contains buffer accesses outside the lock window (the command
frame is written before `mutex_trylock` and the response bytes are read
after `mutex_unlock`), so it is false that every buffer access happens
between lock acquisition and release. -/
theorem C5_buffer_lock_counterexample :
    bufAccessesLockedOnly
      (send_recv_cmd oTemp false d0 ⟨0x03, 0x8D, 0x00⟩ 2).dev.tr = false := by
  rfl

theorem annot_map_loads (h : Bool) (l : List Nat) (g : Nat → Nat) :
    annot h (l.map fun i => Ev.bufLoad (g i)) =
      l.map fun i => (Ev.bufLoad (g i), h) := by
  induction l generalizing h with
  | nil => simp [annot]
  | cons x xs ih => simp [annot, ih]

theorem all_discOK_loads (l : List Nat) (g : Nat → Nat) :
    ((l.map fun i => (Ev.bufLoad (g i), false)).all discOK) = true := by
  induction l with
  | nil => simp
  | cons x xs ih => simp [discOK, ih]

theorem lockAfter_map_loads (h : Bool) (l : List Nat) (g : Nat → Nat) :
    lockAfter h (l.map fun i => Ev.bufLoad (g i)) = h := by
  induction l generalizing h with
  | nil => rfl
  | cons x xs ih => simpa [lockAfter] using ih h

theorem annot_append (h : Bool) (s t : List Ev) :
    annot h (s ++ t) = annot h s ++ annot (lockAfter h s) t := by
  induction s generalizing h with
  | nil => simp [annot, lockAfter]
  | cons e es ih => simp [annot, lockAfter, ih]

theorem okTrace_append {s t : List Ev} (hs : okTrace s)
    (h1 : lockAfter false t = false) (h2 : (annot false t).all discOK = true) :
    okTrace (s ++ t) := by
  obtain ⟨hs1, hs2⟩ := hs
  constructor
  · simp only [lockAfter, List.foldl_append] at *
    rw [show (List.foldl _ false s) = false from hs1]
    exact h1
  · rw [annot_append, List.all_append, hs1, hs2, h2]
    rfl

theorem impl_mutex_false (o : Nat → XferOutcome) (d : DevSt) (c : Cmd) :
    (send_recv_cmd_impl o false d c).mutex = false := by
  obtain ⟨b, n, t⟩ := d
  rcases h : o n with e | e | r <;>
    simp [send_recv_cmd_impl, usb_send_recv_cmd, usb_body, h]

theorem impl_okTrace (o : Nat → XferOutcome) (d : DevSt) (c : Cmd)
    (hd : okTrace d.tr) : okTrace (send_recv_cmd_impl o false d c).dev.tr := by
  obtain ⟨b, n, t⟩ := d
  rcases h : o n with e | e | r <;>
    simp only [send_recv_cmd_impl, usb_send_recv_cmd, usb_body, h,
               Bool.false_eq_true, if_false, List.append_assoc,
               List.cons_append, List.nil_append] <;>
    exact okTrace_append hd (by simp [lockAfter]) (by simp [annot, discOK])

theorem bufLoad_okTrace {s : List Ev} (hs : okTrace s) (i : Nat) :
    okTrace (s ++ [Ev.bufLoad i]) :=
  okTrace_append hs (by simp [lockAfter]) (by simp [annot, discOK])

theorem copyOut_okTrace (m : Bool) (d : DevSt) (n : Nat)
    (hd : okTrace d.tr) : okTrace (copyOut m d n).dev.tr := by
  unfold copyOut
  split
  · exact hd
  · exact okTrace_append hd (lockAfter_map_loads false _ _)
      (by rw [annot_map_loads]; exact all_discOK_loads _ _)

theorem send_recv_okTrace (o : Nat → XferOutcome) (d : DevSt) (c : Cmd)
    (rsize : Nat) (hd : okTrace d.tr) :
    okTrace (send_recv_cmd o false d c rsize).dev.tr := by
  rcases hx1 : send_recv_cmd_impl o false d c with ⟨ret1, m1, d1⟩
  have hm1 : m1 = false := by
    have := impl_mutex_false o d c
    rw [hx1] at this
    exact this
  have hd1 : okTrace d1.tr := by
    have := impl_okTrace o d c hd
    rw [hx1] at this
    exact this
  subst hm1
  simp only [send_recv_cmd, hx1]
  split
  · exact hd1
  · have hd1' : okTrace (d1.tr ++ [Ev.bufLoad 1]) := bufLoad_okTrace hd1 1
    split
    · rcases hx2 : send_recv_cmd_impl o false
        { d1 with tr := d1.tr ++ [Ev.bufLoad 1] } handshake with ⟨ret2, m2, d2⟩
      have hm2 : m2 = false := by
        have := impl_mutex_false o { d1 with tr := d1.tr ++ [Ev.bufLoad 1] } handshake
        rw [hx2] at this
        exact this
      have hd2 : okTrace d2.tr := by
        have := impl_okTrace o { d1 with tr := d1.tr ++ [Ev.bufLoad 1] } handshake hd1'
        rw [hx2] at this
        exact this
      subst hm2
      split
      · exact hd2
      · rcases hx3 : send_recv_cmd_impl o false d2 c with ⟨ret3, m3, d3⟩
        have hd3 : okTrace d3.tr := by
          have := impl_okTrace o d2 c hd2
          rw [hx3] at this
          exact this
        split
        · exact hd3
        · split
          · exact bufLoad_okTrace hd3 1
          · exact copyOut_okTrace _ _ _ (bufLoad_okTrace hd3 1)
    · exact copyOut_okTrace _ _ _ hd1'

/-- C5 amended: in every `send_recv_cmd` call the stores of the command
frame bytes happen while the lock is NOT held (they precede the trylock),
and the reads of the echoed opcode and of the result bytes happen while
the lock is NOT held (they follow the unlock); the two USB transfers are
the events that happen while the lock is held (together with the
inter-transfer zeroing of the buffer). -/
theorem C5_buffer_lock_amended :
    ∀ (o : Nat → XferOutcome) (c : Cmd) (rsize : Nat) (b : List Nat) (n : Nat),
      accessDiscipline ((send_recv_cmd o false ⟨b, n, []⟩ c rsize).dev.tr) = true :=
  fun o c rsize b n =>
    (send_recv_okTrace o ⟨b, n, []⟩ c rsize ⟨rfl, rfl⟩).2

end Corsairpsu
